import Mathlib

/-!
Shallow embedding of the budget_chat server from this repository.

Two implementations exist in the source:
* `VecChat` embeds `src/budget_chat/src/main.rs`, which stores members in a
  `Vec<ChatMember>` and identifies members by display name.
* `MapChat` embeds `src/budget_chat/src/chat/budget_chat.rs` together with
  `src/budget_chat/src/chat/chat_member.rs`, which store members in a
  `HashMap<String, ChatMember>` keyed by session id.

Socket writes are modelled by a failure oracle `wfail : Nat → Bool` over model
stream handles (`write_all` on stream `s` fails exactly when `wfail s = true`),
and socket reads by an explicit `ReadResult`.  Rust panics are modelled as the
`none` branch of an `Option` result.  Broadcasts return the list of delivery
attempts they perform, in iteration order, each tagged with its success bit.
-/

set_option linter.unusedVariables false

/-- Model of `str::trim`: drop whitespace characters from both ends of the
string (written over the character list so that it evaluates by kernel
reduction). -/
def rustTrim (s : String) : String :=
  ⟨((s.data.dropWhile Char.isWhitespace).reverse.dropWhile
      Char.isWhitespace).reverse⟩

/-- The result of one `read_line` call on the model connection: either the raw
text placed in the buffer (newline included when one was read) or an error. -/
inductive ReadResult where
  | ok : String → ReadResult
  | err : ReadResult
deriving DecidableEq, Repr

namespace VecChat

/-- Embeds `struct ChatMember` from `main.rs`: a display name plus the
`TcpStream`, whose identity we model as a `Nat` handle. -/
structure ChatMember where
  name : String
  stream : Nat
deriving DecidableEq, Repr

/-- One socket write attempt recorded by a broadcast: the targeted member, the
line written (before the trailing newline added by `format!`), and whether
`write_all` succeeded. -/
structure Attempt where
  target : ChatMember
  line : String
  ok : Bool
deriving DecidableEq, Repr

/-- Embeds `broadcast_message_to_other_users` (`main.rs` lines 269-305): iterate
the member vector, skip every member whose `name` equals `current_user_name`,
and call `write_all` on each remaining member; a failed write is only logged and
changes nothing.  Returns the delivery attempts in iteration order; the member
vector itself is not mutated by the loop. -/
def broadcast_message_to_other_users (wfail : Nat → Bool) (message : String)
    (current_user_name : String) (chat_members : List ChatMember) : List Attempt :=
  chat_members.filterMap (fun other =>
    if other.name = current_user_name then none
    else some ⟨other, message, !wfail other.stream⟩)

/-- Embeds `send_message_to_current_user` (`main.rs` lines 307-333): find the
first member whose `name` equals `name` and write to its stream; `none` models
the `panic!("Could not find current user!")` branch. -/
def send_message_to_current_user (wfail : Nat → Bool) (message : String)
    (name : String) (chat_members : List ChatMember) : Option Attempt :=
  match chat_members.find? (fun member => member.name = name) with
  | some chat_member => some ⟨chat_member, message, !wfail chat_member.stream⟩
  | none => none

/-- Embeds `room_membership_message_builder` (`main.rs` lines 370-382): map the
members to their names, keep the names different from `current_user_name`, and
join with comma-and-space after the literal prefix. -/
def room_membership_message_builder (current_user_name : String)
    (chat_members : List ChatMember) : String :=
  "* The room contains: " ++
    String.intercalate ", "
      ((chat_members.map (fun member => member.name)).filter
        (fun name => name ≠ current_user_name))

/-- Embeds `user_joined_message_builder` (`main.rs` lines 366-368). -/
def user_joined_message_builder (name : String) : String :=
  "* " ++ name ++ " has entered the room"

/-- Embeds `user_chat_message_builder` (`main.rs` lines 384-386). -/
def user_chat_message_builder (current_user_name : String) (message : String) : String :=
  "[" ++ current_user_name ++ "] " ++ message

/-- Embeds `remove_user_from_chat` (`main.rs` lines 337-362): find the position
of the first member whose `name` matches, remove it, then broadcast the leave
line to the remaining members (skipping name matches); `none` models the
`panic!` branch taken when no member has the given name.  Returns the new
member vector and the leave-broadcast attempts. -/
def remove_user_from_chat (wfail : Nat → Bool) (name : String)
    (chat_members : List ChatMember) : Option (List ChatMember × List Attempt) :=
  match chat_members.findIdx? (fun member => member.name = name) with
  | some idx =>
      let remaining := chat_members.eraseIdx idx
      some (remaining,
        broadcast_message_to_other_users wfail ("* " ++ name ++ " has left the room")
          name remaining)
  | none => none

/-- Embeds `request_name` (`main.rs` lines 209-265): write the welcome prompt,
read one line, reject when the raw line `is_empty`, trim it, then reject when
any character of the trimmed text is not alphanumeric; otherwise return the
trimmed name.  `promptOk` is whether the prompt write succeeded. -/
def request_name (promptOk : Bool) (read : ReadResult) : Option String :=
  if !promptOk then none
  else
    match read with
    | ReadResult.err => none
    | ReadResult.ok name =>
        if name.isEmpty then none
        else
          let name := rustTrim name
          if name.toList.all Char.isAlphanum then some name else none

/-- Outcome of the registration critical section. -/
inductive RegResult where
  | failed (state : List ChatMember) (rosterAttempt : Attempt)
  | succeeded (state : List ChatMember) (rosterAttempt : Attempt)
      (announcements : List Attempt)
  | panicked
deriving DecidableEq, Repr

/-- Embeds the registration critical section of `handle_connection` (`main.rs`
lines 86-120): push the new member onto the vector, build the roster line from
the resulting vector, send it via `send_message_to_current_user`; on write
error remove the entry at index `len - 1` and return without broadcasting; on
success broadcast the join announcement to the other users.  The `panicked`
branch models the `panic!` inside `send_message_to_current_user`. -/
def registration_scope (wfail : Nat → Bool) (st : List ChatMember)
    (chat_member : ChatMember) : RegResult :=
  let st1 := st ++ [chat_member]
  let roster := room_membership_message_builder chat_member.name st1
  match send_message_to_current_user wfail roster chat_member.name st1 with
  | none => RegResult.panicked
  | some att =>
      if att.ok then
        RegResult.succeeded st1 att
          (broadcast_message_to_other_users wfail
            (user_joined_message_builder chat_member.name) chat_member.name st1)
      else
        RegResult.failed (st1.eraseIdx (st1.length - 1)) att

/-- Chronological sequence of socket writes performed by the registration
critical section: the roster write first, then the join announcements. -/
def RegResult.trace : RegResult → List Attempt
  | RegResult.failed _ att => [att]
  | RegResult.succeeded _ att anns => att :: anns
  | RegResult.panicked => []

/-- Outcome of one iteration of the session loop: the member departed (loop
broke after a removal and leave broadcast), or the loop continues after zero or
more chat-message writes. -/
inductive LoopStep where
  | left (state : List ChatMember) (leaveAttempts : List Attempt)
  | chatted (state : List ChatMember) (chatAttempts : List Attempt)
  | panicked
deriving DecidableEq, Repr

/-- Embeds one iteration of the session loop of `handle_connection` (`main.rs`
lines 126-171): read a line and trim it; on a read error, or when the trimmed
message is empty, remove the user and break; otherwise, when the member vector
is nonempty, broadcast the bracketed chat line to the other users and repeat. -/
def session_loop_iteration (wfail : Nat → Bool) (user_name : String)
    (st : List ChatMember) (read : ReadResult) : LoopStep :=
  match read with
  | ReadResult.err =>
      match remove_user_from_chat wfail user_name st with
      | none => LoopStep.panicked
      | some (st2, atts) => LoopStep.left st2 atts
  | ReadResult.ok raw =>
      let message := rustTrim raw
      if message.isEmpty then
        match remove_user_from_chat wfail user_name st with
        | none => LoopStep.panicked
        | some (st2, atts) => LoopStep.left st2 atts
      else if st.isEmpty then LoopStep.chatted st []
      else
        LoopStep.chatted st
          (broadcast_message_to_other_users wfail
            (user_chat_message_builder user_name message) user_name st)

end VecChat

namespace MapChat

/-- Embeds `pub struct ChatMember` from `chat/chat_member.rs`: name, owning
session id, the `registered` flag, and the stream handle. -/
structure ChatMember where
  name : String
  owning_session_id : String
  registered : Bool
  stream : Nat
deriving DecidableEq, Repr

/-- The registry backing `BudgetChat.chat_members`: the entries of the
`HashMap<String, ChatMember>` in iteration order, keyed by session id. -/
abbrev Registry := List (String × ChatMember)

/-- One socket write attempt recorded by a broadcast in the map-based
implementation. -/
structure Attempt where
  session_id : String
  target : ChatMember
  line : String
  ok : Bool
deriving DecidableEq, Repr

/-- `HashMap::insert`: when the key is present the stored value is replaced
(the old value is returned by Rust and discarded by the caller); otherwise a
new entry is added. -/
def hashmap_insert (key : String) (v : ChatMember) (reg : Registry) : Registry :=
  if reg.any (fun e => e.1 = key) then
    reg.map (fun e => if e.1 = key then (key, v) else e)
  else reg ++ [(key, v)]

/-- Embeds `add_new_member` (`chat/budget_chat.rs` lines 38-41): lock the map
and `insert` the member under its `owning_session_id`. -/
def add_new_member (chat_member : ChatMember) (reg : Registry) : Registry :=
  hashmap_insert chat_member.owning_session_id chat_member reg

/-- Embeds `send_message_to_session` (`chat/budget_chat.rs` lines 43-54): look
the session id up in the map and write to that member; `none` models the
`expect` panic taken when the id is absent. -/
def send_message_to_session (wfail : Nat → Bool) (current_session_id : String)
    (message : String) (reg : Registry) : Option Attempt :=
  match reg.find? (fun e => e.1 = current_session_id) with
  | none => none
  | some e => some ⟨e.1, e.2, message, !wfail e.2.stream⟩

/-- Embeds `broadcast_message_to_chat` (`chat/budget_chat.rs` lines 76-105):
iterate the map entries, skip the entry whose key equals `current_session_id`
and every entry whose member is not `registered`, and write the message to each
remaining member; a failed write is only logged and changes nothing. -/
def broadcast_message_to_chat (wfail : Nat → Bool) (current_session_id : String)
    (message : String) (reg : Registry) : List Attempt :=
  reg.filterMap (fun e =>
    if current_session_id = e.1 then none
    else if !e.2.registered then none
    else some ⟨e.1, e.2, message, !wfail e.2.stream⟩)

/-- Embeds `get_current_member_names` (`chat/budget_chat.rs` lines 107-113):
lock the map and collect every entry's member name (the session id argument is
used only for logging). -/
def get_current_member_names (current_session_id : String) (reg : Registry) :
    List String :=
  reg.map (fun e => e.2.name)

/-- Embeds `remove_user_from_chat` (`chat/budget_chat.rs` lines 115-132):
`HashMap::remove` the entry for the session id (`none` models the `expect`
panic when it is absent), then, only when the removed member was `registered`,
broadcast the leave line to the remaining entries. -/
def remove_user_from_chat (wfail : Nat → Bool) (current_session_id : String)
    (reg : Registry) : Option (Registry × List Attempt) :=
  match reg.find? (fun e => e.1 = current_session_id) with
  | none => none
  | some e =>
      let reg2 := reg.filter (fun p => p.1 ≠ current_session_id)
      if e.2.registered then
        some (reg2,
          broadcast_message_to_chat wfail current_session_id
            ("* " ++ e.2.name ++ " has left the room") reg2)
      else
        some (reg2, [])

/-- Embeds `ChatMember::read_message` (`chat/chat_member.rs` lines 107-134):
read a line, trim it; a read error or an empty trimmed message yields an
error, otherwise the trimmed message is returned. -/
def read_message (read : ReadResult) : Except Unit String :=
  match read with
  | ReadResult.err => Except.error ()
  | ReadResult.ok raw =>
      let message := rustTrim raw
      if message.isEmpty then Except.error () else Except.ok message

/-- Embeds `read_message_from_session` (`chat/budget_chat.rs` lines 56-74):
look the session id up (`none` models the `expect` panic), `try_clone` the
member (`cloneOk` is whether the clone succeeded), then `read_message` on the
clone. -/
def read_message_from_session (cloneOk : Bool) (read : ReadResult)
    (current_session_id : String) (reg : Registry) : Option (Except Unit String) :=
  match reg.find? (fun e => e.1 = current_session_id) with
  | none => none
  | some _ =>
      if !cloneOk then some (Except.error ())
      else some (read_message read)

/-- Embeds `ChatMember::register_new_member` (`chat/chat_member.rs` lines
20-88): create the member unregistered, send the welcome prompt (`promptOk` is
whether that write succeeded), call `read_message` (which already rejects read
errors and lines empty after trimming), trim the result again, reject any
non-alphanumeric character, and otherwise return the member with its name set
and `registered = true`. -/
def register_new_member (promptOk : Bool) (read : ReadResult)
    (owning_session_id : String) (stream : Nat) : Except Unit ChatMember :=
  if !promptOk then Except.error ()
  else
    match read_message read with
    | Except.error _ => Except.error ()
    | Except.ok message =>
        let name := rustTrim message
        if name.toList.all Char.isAlphanum then
          Except.ok ⟨name, owning_session_id, true, stream⟩
        else Except.error ()

end MapChat

namespace SpecView

/-- Follows the words of claim C4: the roster names all current members other
than the new member itself (identity-based exclusion), comma-and-space
joined. -/
def roster_line_claim (joiner : VecChat.ChatMember)
    (chat_members : List VecChat.ChatMember) : String :=
  "* The room contains: " ++ String.intercalate ", "
    ((chat_members.filter (fun m => m ≠ joiner)).map (fun m => m.name))

/-- Follows the words of the spec for `listActiveNames(excludingSessionId)`
(claim C6): the names of exactly the registered members whose id differs from
the given one. -/
def list_active_names_claim (excluding : String) (reg : MapChat.Registry) :
    List String :=
  reg.filterMap (fun e =>
    if e.1 = excluding then none
    else if e.2.registered then some e.2.name else none)

/-- Follows the words of the spec for `add(member)` (claim C5): the insert
fails when the session id is already present. -/
def add_claim (chat_member : MapChat.ChatMember) (reg : MapChat.Registry) :
    Option MapChat.Registry :=
  if reg.any (fun e => e.1 = chat_member.owning_session_id) then none
  else some (reg ++ [(chat_member.owning_session_id, chat_member)])

/-- Follows the words of claim C3 for a valid registration name line: the
trimmed text is non-empty and every one of its characters is alphanumeric. -/
def valid_name_claim (raw : String) : Bool :=
  !(rustTrim raw).isEmpty && (rustTrim raw).toList.all Char.isAlphanum

end SpecView

namespace VecChat

lemma mem_broadcast {wf : Nat → Bool} {msg sender : String}
    {members : List ChatMember} {m : ChatMember}
    (hmem : m ∈ members) (hname : m.name ≠ sender) :
    (⟨m, msg, !wf m.stream⟩ : Attempt) ∈
      broadcast_message_to_other_users wf msg sender members :=
  List.mem_filterMap.mpr ⟨m, hmem, by simp [hname]⟩

lemma of_mem_broadcast {wf : Nat → Bool} {msg sender : String}
    {members : List ChatMember} {a : Attempt}
    (h : a ∈ broadcast_message_to_other_users wf msg sender members) :
    a.target ∈ members ∧ a.target.name ≠ sender ∧ a.line = msg ∧
      a.ok = !wf a.target.stream := by
  obtain ⟨other, hmem, hf⟩ := List.mem_filterMap.mp h
  split at hf
  · exact absurd hf (by simp)
  next hn =>
    cases Option.some.inj hf
    exact ⟨hmem, hn, rfl, rfl⟩

end VecChat

namespace MapChat

lemma mem_broadcast_map {wf : Nat → Bool} {sid msg : String} {reg : Registry}
    {e : String × ChatMember}
    (hmem : e ∈ reg) (hsid : sid ≠ e.1) (hreg : e.2.registered = true) :
    (⟨e.1, e.2, msg, !wf e.2.stream⟩ : Attempt) ∈
      broadcast_message_to_chat wf sid msg reg :=
  List.mem_filterMap.mpr ⟨e, hmem, by simp [hsid, hreg]⟩

lemma of_mem_broadcast_map {wf : Nat → Bool} {sid msg : String} {reg : Registry}
    {a : Attempt} (h : a ∈ broadcast_message_to_chat wf sid msg reg) :
    (a.session_id, a.target) ∈ reg ∧ a.session_id ≠ sid ∧
      a.target.registered = true ∧ a.line = msg ∧ a.ok = !wf a.target.stream := by
  obtain ⟨e, hmem, hf⟩ := List.mem_filterMap.mp h
  split at hf
  · exact absurd hf (by simp)
  next hs =>
    split at hf
    · exact absurd hf (by simp)
    next hr =>
      cases Option.some.inj hf
      exact ⟨hmem, fun hc => hs hc.symm, by simpa using hr, rfl, rfl⟩

lemma find?_key_eq_none_iff (sid : String) (reg : Registry) :
    reg.find? (fun e => e.1 = sid) = none ↔ ∀ e ∈ reg, e.1 ≠ sid := by
  rw [List.find?_eq_none]
  simp

end MapChat

/-- C8: for every broadcast originated by a member, the originating member is
never among the recipients of its own broadcast: in the vector implementation
every delivery attempt targets a member whose name differs from the name the
broadcast excludes (in particular the originator itself), and in the map
implementation every delivery attempt targets a session id different from the
originating session id. -/
theorem c8_no_self_broadcast :
    (∀ (wf : Nat → Bool) (msg sender : String)
        (members : List VecChat.ChatMember),
      ∀ a ∈ VecChat.broadcast_message_to_other_users wf msg sender members,
        a.target.name ≠ sender) ∧
    (∀ (wf : Nat → Bool) (sid msg : String) (reg : MapChat.Registry),
      ∀ a ∈ MapChat.broadcast_message_to_chat wf sid msg reg,
        a.session_id ≠ sid) := by
  constructor
  · intro wf msg sender members a ha
    exact (VecChat.of_mem_broadcast ha).2.1
  · intro wf sid msg reg a ha
    exact (MapChat.of_mem_broadcast_map ha).2.1

/-- Witness for C8 at a concrete broadcast. -/
theorem c8_no_self_broadcast_witness :
    (⟨⟨"alice", 0⟩, "hi", true⟩ : VecChat.Attempt).target.name ≠ "bob" :=
  c8_no_self_broadcast.1 (fun _ => false) "hi" "bob"
    [⟨"alice", 0⟩, ⟨"bob", 1⟩] _ (by decide)

/-- C10: the registry lookups panic exactly when the requested entry is
absent: the vector `remove_user_from_chat` panics (returns `none`) iff no
member carries the given name, and the map operations
`send_message_to_session`, `read_message_from_session` and
`remove_user_from_chat` panic iff the session id is not a key of the map; so
whenever the member is present (it was added and not yet removed) the panic
branch is not taken. -/
theorem c10_lookup_panics :
    (∀ (wf : Nat → Bool) (name : String) (members : List VecChat.ChatMember),
      VecChat.remove_user_from_chat wf name members = none ↔
        ∀ m ∈ members, m.name ≠ name) ∧
    (∀ (wf : Nat → Bool) (sid msg : String) (reg : MapChat.Registry),
      MapChat.send_message_to_session wf sid msg reg = none ↔
        ∀ e ∈ reg, e.1 ≠ sid) ∧
    (∀ (cloneOk : Bool) (read : ReadResult) (sid : String)
        (reg : MapChat.Registry),
      MapChat.read_message_from_session cloneOk read sid reg = none ↔
        ∀ e ∈ reg, e.1 ≠ sid) ∧
    (∀ (wf : Nat → Bool) (sid : String) (reg : MapChat.Registry),
      MapChat.remove_user_from_chat wf sid reg = none ↔
        ∀ e ∈ reg, e.1 ≠ sid) := by
  refine ⟨?_, ?_, ?_, ?_⟩
  · intro wf name members
    unfold VecChat.remove_user_from_chat
    cases h : members.findIdx? (fun m => decide (m.name = name)) with
    | none =>
        rw [List.findIdx?_eq_none_iff] at h
        constructor
        · intro _ m hm
          simpa using h m hm
        · intro _
          rfl
    | some idx =>
        constructor
        · intro habs
          exact absurd habs (by simp)
        · intro hall
          rw [List.findIdx?_eq_none_iff.mpr
            (fun m hm => by simpa using hall m hm)] at h
          exact absurd h (by simp)
  · intro wf sid msg reg
    unfold MapChat.send_message_to_session
    cases h : reg.find? (fun e => decide (e.1 = sid)) with
    | none =>
        rw [MapChat.find?_key_eq_none_iff] at h
        exact iff_of_true rfl h
    | some e =>
        constructor
        · intro habs
          exact absurd habs (by simp)
        · intro hall
          rw [(MapChat.find?_key_eq_none_iff sid reg).mpr hall] at h
          exact absurd h (by simp)
  · intro cloneOk read sid reg
    unfold MapChat.read_message_from_session
    cases h : reg.find? (fun e => decide (e.1 = sid)) with
    | none =>
        rw [MapChat.find?_key_eq_none_iff] at h
        exact iff_of_true rfl h
    | some e =>
        constructor
        · intro habs
          by_cases hc : cloneOk = false <;> simp [hc] at habs
        · intro hall
          rw [(MapChat.find?_key_eq_none_iff sid reg).mpr hall] at h
          exact absurd h (by simp)
  · intro wf sid reg
    unfold MapChat.remove_user_from_chat
    cases h : reg.find? (fun e => decide (e.1 = sid)) with
    | none =>
        rw [MapChat.find?_key_eq_none_iff] at h
        exact iff_of_true rfl h
    | some e =>
        constructor
        · intro habs
          by_cases hr : e.2.registered = true <;> simp [hr] at habs
        · intro hall
          rw [(MapChat.find?_key_eq_none_iff sid reg).mpr hall] at h
          exact absurd h (by simp)

/-- Witness for C10: a present entry does not panic, an absent one does. -/
theorem c10_lookup_panics_witness :
    MapChat.send_message_to_session (fun _ => false) "ghost" "hi"
      [("s1", ⟨"alice", "s1", true, 0⟩)] = none ∧
    ¬ VecChat.remove_user_from_chat (fun _ => false) "alice"
      [⟨"alice", 0⟩] = none := by
  constructor
  · exact (c10_lookup_panics.2.1 (fun _ => false) "ghost" "hi"
      [("s1", ⟨"alice", "s1", true, 0⟩)]).mpr (by decide)
  · intro hnone
    have h := (c10_lookup_panics.1 (fun _ => false) "alice"
      [⟨"alice", 0⟩]).mp hnone
    exact h ⟨"alice", 0⟩ (by decide) rfl

/-- C2 counterexample: in the map implementation a failed write to session
`s1` (stream 1) is only logged: the broadcast call performs no state change at
all (the function mutates nothing and returns only the attempts), so a later
broadcast over the same registry attempts delivery to `s1` again instead of
skipping it — no failed/inactive marker is ever set. -/
theorem c2_counterexample :
    MapChat.broadcast_message_to_chat (fun s => s == 1) "s0" "first"
        [("s0", ⟨"sender", "s0", true, 0⟩), ("s1", ⟨"aye", "s1", true, 1⟩),
         ("s2", ⟨"bee", "s2", true, 2⟩)] =
      [⟨"s1", ⟨"aye", "s1", true, 1⟩, "first", false⟩,
       ⟨"s2", ⟨"bee", "s2", true, 2⟩, "first", true⟩] ∧
    (⟨"s1", ⟨"aye", "s1", true, 1⟩, "second", false⟩ : MapChat.Attempt) ∈
      MapChat.broadcast_message_to_chat (fun s => s == 1) "s0" "second"
        [("s0", ⟨"sender", "s0", true, 0⟩), ("s1", ⟨"aye", "s1", true, 1⟩),
         ("s2", ⟨"bee", "s2", true, 2⟩)] := by
  decide

/-- C2 (amended): in both implementations every eligible recipient of a
broadcast call (other session id and registered in the map implementation;
other name in the vector implementation) receives a delivery attempt whose
success bit depends only on that recipient's own stream, so a write failure to
one recipient does not prevent delivery to the rest of the same call; the
failure is only logged and no member is marked for later skipping. -/
theorem c2_isolation :
    (∀ (wf : Nat → Bool) (sid msg : String) (reg : MapChat.Registry),
      ∀ e ∈ reg, sid ≠ e.1 → e.2.registered = true →
        (⟨e.1, e.2, msg, !wf e.2.stream⟩ : MapChat.Attempt) ∈
          MapChat.broadcast_message_to_chat wf sid msg reg) ∧
    (∀ (wf : Nat → Bool) (msg sender : String)
        (members : List VecChat.ChatMember),
      ∀ m ∈ members, m.name ≠ sender →
        (⟨m, msg, !wf m.stream⟩ : VecChat.Attempt) ∈
          VecChat.broadcast_message_to_other_users wf msg sender members) := by
  constructor
  · intro wf sid msg reg e he hs hr
    exact MapChat.mem_broadcast_map he hs hr
  · intro wf msg sender members m hm hn
    exact VecChat.mem_broadcast hm hn

/-- Witness for C2: with the write to stream 1 failing, session `s2` still
receives a successful delivery in the same broadcast call. -/
theorem c2_isolation_witness :
    (⟨"s2", ⟨"bee", "s2", true, 2⟩, "hello", true⟩ : MapChat.Attempt) ∈
      MapChat.broadcast_message_to_chat (fun s => s == 1) "s0" "hello"
        [("s1", ⟨"aye", "s1", true, 1⟩), ("s2", ⟨"bee", "s2", true, 2⟩)] :=
  c2_isolation.1 (fun s => s == 1) "s0" "hello"
    [("s1", ⟨"aye", "s1", true, 1⟩), ("s2", ⟨"bee", "s2", true, 2⟩)]
    ("s2", ⟨"bee", "s2", true, 2⟩) (by decide) (by decide) (by decide)

/-- C4 counterexample: when another member shares the joiner's name `bob`, the
builder omits that member as well, yielding the bare prefix where the claim
demands `"* The room contains: bob"` (exclusion of the new member itself
only). -/
theorem c4_counterexample :
    VecChat.room_membership_message_builder "bob" [⟨"bob", 0⟩, ⟨"bob", 1⟩] =
      "* The room contains: " ∧
    SpecView.roster_line_claim ⟨"bob", 1⟩ [⟨"bob", 0⟩, ⟨"bob", 1⟩] =
      "* The room contains: bob" := by
  exact ⟨rfl, rfl⟩

/-- C4 (amended): the roster line is exactly `"* The room contains: "`
followed by the comma-and-space join of the names of the members whose name
differs from the joiner's name — members sharing the joiner's name are omitted
together with the joiner itself — and the joiner's name never appears among
the listed names; when every member shares the joiner's name the line is the
bare prefix. -/
theorem c4_roster_names (current : String) (members : List VecChat.ChatMember) :
    VecChat.room_membership_message_builder current members =
      "* The room contains: " ++ String.intercalate ", "
        ((members.filter (fun m => m.name ≠ current)).map (fun m => m.name)) ∧
    current ∉ (members.map (fun m => m.name)).filter (fun n => n ≠ current) := by
  constructor
  · unfold VecChat.room_membership_message_builder
    rw [List.filter_map]
    rfl
  · intro hmem
    have h := (List.mem_filter.mp hmem).2
    simp at h

/-- Witness for C4 at a concrete member list. -/
theorem c4_roster_names_witness :
    VecChat.room_membership_message_builder "carol"
      [⟨"alice", 0⟩, ⟨"carol", 1⟩] = "* The room contains: alice" :=
  (c4_roster_names "carol" [⟨"alice", 0⟩, ⟨"carol", 1⟩]).1.trans (by rfl)

/-- C5 counterexample: adding a second member under the already-present
session id `s1` does not fail — `HashMap::insert` silently replaces the
existing entry (the returned old value is discarded by `add_new_member`),
where the claim demands a failure. -/
theorem c5_counterexample :
    SpecView.add_claim ⟨"bee", "s1", true, 1⟩
        [("s1", ⟨"aye", "s1", true, 0⟩)] = none ∧
    MapChat.add_new_member ⟨"bee", "s1", true, 1⟩
        [("s1", ⟨"aye", "s1", true, 0⟩)] =
      [("s1", ⟨"bee", "s1", true, 1⟩)] := by
  exact ⟨rfl, rfl⟩

/-- C5 (amended): at most one member per session id holds — adding preserves
distinctness of the registry keys — and the new member is stored under its
session id; but an add whose session id is already present succeeds and
silently replaces the existing entry (every entry under that id afterwards is
the new member) instead of failing. -/
theorem c5_add_unique_key (chat_member : MapChat.ChatMember)
    (reg : MapChat.Registry) :
    ((reg.map (fun e => e.1)).Nodup →
      ((MapChat.add_new_member chat_member reg).map (fun e => e.1)).Nodup) ∧
    (chat_member.owning_session_id, chat_member) ∈
      MapChat.add_new_member chat_member reg ∧
    (∀ e ∈ MapChat.add_new_member chat_member reg,
      e.1 = chat_member.owning_session_id →
        e = (chat_member.owning_session_id, chat_member)) := by
  unfold MapChat.add_new_member MapChat.hashmap_insert
  by_cases hany : reg.any (fun e => e.1 = chat_member.owning_session_id)
  · rw [if_pos hany]
    refine ⟨?_, ?_, ?_⟩
    · intro hnd
      rw [List.map_map]
      have heq : reg.map
          ((fun e => e.1) ∘ fun e =>
            if e.1 = chat_member.owning_session_id then
              (chat_member.owning_session_id, chat_member) else e) =
          reg.map (fun e => e.1) := by
        apply List.map_congr_left
        intro e he
        by_cases hk : e.1 = chat_member.owning_session_id <;>
          simp [Function.comp, hk]
      rw [heq]
      exact hnd
    · obtain ⟨e, he, hk⟩ := List.any_eq_true.mp hany
      refine List.mem_map.mpr ⟨e, he, ?_⟩
      simp only [of_decide_eq_true hk, if_pos]
    · intro e he hk
      obtain ⟨e0, he0, hf⟩ := List.mem_map.mp he
      by_cases h0 : e0.1 = chat_member.owning_session_id
      · rw [if_pos h0] at hf
        exact hf.symm
      · rw [if_neg h0] at hf
        exact absurd (hf ▸ hk) h0
  · rw [if_neg hany]
    have hnot : ∀ e ∈ reg, e.1 ≠ chat_member.owning_session_id := by
      intro e he hk
      exact hany (List.any_eq_true.mpr ⟨e, he, decide_eq_true hk⟩)
    refine ⟨?_, ?_, ?_⟩
    · intro hnd
      rw [List.map_append]
      rw [List.nodup_append]
      refine ⟨hnd, by simp, ?_⟩
      intro k hk1 hk2
      obtain ⟨e, he, hke⟩ := List.mem_map.mp hk1
      simp only [List.map_cons, List.map_nil, List.mem_singleton] at hk2
      exact hnot e he (hke.trans hk2)
    · exact List.mem_append_right _ (by simp)
    · intro e he hk
      rcases List.mem_append.mp he with hin | hin
      · exact absurd hk (hnot e hin)
      · simpa using hin

/-- Witness for C5: keys stay distinct after adding a fresh session id. -/
theorem c5_add_unique_key_witness :
    ((MapChat.add_new_member ⟨"bee", "s2", true, 1⟩
        [("s1", ⟨"aye", "s1", true, 0⟩)]).map (fun e => e.1)).Nodup :=
  (c5_add_unique_key ⟨"bee", "s2", true, 1⟩
    [("s1", ⟨"aye", "s1", true, 0⟩)]).1 (by decide)

/-- C6 counterexample: `get_current_member_names` performs no exclusion at
all: called with session id `s1` it returns both the name of `s1` itself and
the name of the unregistered member `s2`, where the claimed
`listActiveNames(excludingSessionId)` semantics returns neither. -/
theorem c6_counterexample :
    MapChat.get_current_member_names "s1"
        [("s1", ⟨"alice", "s1", true, 0⟩),
         ("s2", ⟨"UNREGISTERED", "s2", false, 1⟩)] =
      ["alice", "UNREGISTERED"] ∧
    SpecView.list_active_names_claim "s1"
        [("s1", ⟨"alice", "s1", true, 0⟩),
         ("s2", ⟨"UNREGISTERED", "s2", false, 1⟩)] = [] := by
  exact ⟨rfl, rfl⟩

/-- C6 (amended): `get_current_member_names` returns the names of all
registry entries in registry iteration order, with no exclusion whatsoever:
every entry's name appears — including the entry with the given session id and
entries that are not registered — every returned name comes from some entry,
and the result does not depend on the given session id at all. -/
theorem c6_all_names (sid sid2 : String) (reg : MapChat.Registry) :
    (∀ e ∈ reg, e.2.name ∈ MapChat.get_current_member_names sid reg) ∧
    (∀ n ∈ MapChat.get_current_member_names sid reg, ∃ e ∈ reg, e.2.name = n) ∧
    MapChat.get_current_member_names sid reg =
      MapChat.get_current_member_names sid2 reg := by
  refine ⟨?_, ?_, rfl⟩
  · intro e he
    exact List.mem_map.mpr ⟨e, he, rfl⟩
  · intro n hn
    exact List.mem_map.mp hn

/-- Witness for C6: the caller's own name is among the returned names. -/
theorem c6_all_names_witness :
    "alice" ∈ MapChat.get_current_member_names "s1"
      [("s1", ⟨"alice", "s1", true, 0⟩)] :=
  (c6_all_names "s1" "s2" [("s1", ⟨"alice", "s1", true, 0⟩)]).1
    ("s1", ⟨"alice", "s1", true, 0⟩) (by decide)

/-- C3: the claim matches the intended validation but `request_name` in
`main.rs` checks `is_empty` on the raw line before trimming, so a line that is
whitespace only — here a bare newline, with the same result for `" \n"` — is
accepted and registers the empty name, even though the claim (and the sister
implementation `register_new_member` in `chat/chat_member.rs`, third conjunct)
rejects it; for every line that is valid per the claim, `request_name` does
accept it and returns the trimmed name. -/
theorem c3_empty_name_bug :
    VecChat.request_name true (ReadResult.ok "\n") = some "" ∧
    SpecView.valid_name_claim "\n" = false ∧
    MapChat.register_new_member true (ReadResult.ok "\n") "sess" 7 =
      Except.error () ∧
    (∀ raw : String, SpecView.valid_name_claim raw = true →
      VecChat.request_name true (ReadResult.ok raw) = some (rustTrim raw)) := by
  refine ⟨by decide, by decide, by rfl, ?_⟩
  intro raw hv
  unfold SpecView.valid_name_claim at hv
  rw [Bool.and_eq_true] at hv
  obtain ⟨h1, h2⟩ := hv
  have hne : raw.isEmpty = false := by
    cases hr : raw.isEmpty
    · rfl
    · rw [String.isEmpty_iff] at hr
      subst hr
      exact absurd h1 (by decide)
  unfold VecChat.request_name
  simp [hne]
  exact fun x hx => List.all_eq_true.mp h2 x (by simpa using hx)

/-- Witness for C3: a valid name line is accepted. -/
theorem c3_empty_name_bug_witness :
    VecChat.request_name true (ReadResult.ok "bob\n") = some "bob" := by
  have h := c3_empty_name_bug.2.2.2 "bob\n" (by decide)
  rw [h]
  decide

/-- C9: the vector implementation identifies members by display name: a
broadcast with sender name `n` skips every member named `n` (first conjunct),
removal deletes the member at the first index whose name matches (second
conjunct), and concretely with two registered members both named `bob`, a
broadcast originated under the name `bob` reaches neither of them, and a
departure of the `bob` session at stream 1 removes the other `bob`
(stream 0) from the registry. -/
theorem c9_name_based_identity :
    (∀ (wf : Nat → Bool) (msg n : String) (members : List VecChat.ChatMember),
      ∀ m ∈ members, m.name = n →
        ∀ a ∈ VecChat.broadcast_message_to_other_users wf msg n members,
          a.target ≠ m) ∧
    (∀ (wf : Nat → Bool) (n : String) (members : List VecChat.ChatMember)
        (idx : Nat),
      members.findIdx? (fun m => m.name = n) = some idx →
        ∃ atts, VecChat.remove_user_from_chat wf n members =
          some (members.eraseIdx idx, atts)) ∧
    VecChat.broadcast_message_to_other_users (fun _ => false) "[bob] hi" "bob"
        [⟨"bob", 0⟩, ⟨"bob", 1⟩] = [] ∧
    VecChat.remove_user_from_chat (fun _ => false) "bob"
        [⟨"bob", 0⟩, ⟨"bob", 1⟩] = some ([⟨"bob", 1⟩], []) := by
  refine ⟨?_, ?_, by decide, by decide⟩
  · intro wf msg n members m hm hname a ha hatm
    exact (VecChat.of_mem_broadcast ha).2.1 (hatm ▸ hname)
  · intro wf n members idx h
    unfold VecChat.remove_user_from_chat
    rw [h]
    exact ⟨_, rfl⟩

/-- Witness for C9: removal deletes the first name match at a concrete
index. -/
theorem c9_name_based_identity_witness :
    ∃ atts, VecChat.remove_user_from_chat (fun _ => false) "alice"
        [⟨"bob", 0⟩, ⟨"alice", 1⟩] = some ([⟨"bob", 0⟩], atts) :=
  c9_name_based_identity.2.1 (fun _ => false) "alice"
    [⟨"bob", 0⟩, ⟨"alice", 1⟩] 1 (by decide)

namespace VecChat

lemma find?_name_append {st : List ChatMember} {j : ChatMember}
    (hfresh : ∀ m ∈ st, m.name ≠ j.name) :
    (st ++ [j]).find? (fun m => m.name = j.name) = some j := by
  rw [List.find?_append,
    List.find?_eq_none.mpr (fun x hx => by simpa using hfresh x hx)]
  simp [List.find?_cons]

lemma eraseIdx_concat {α : Type _} (st : List α) (j : α) :
    (st ++ [j]).eraseIdx st.length = st := by
  induction st with
  | nil => rfl
  | cons x xs ih => simp [List.eraseIdx_cons_succ, ih]

lemma findIdx_erase_of_filter_singleton {α : Type _} {p : α → Bool}
    {l : List α} {m : α} (h : l.filter p = [m]) :
    ∃ idx, l.findIdx? p = some idx ∧
      (l.eraseIdx idx).filter p = [] ∧
      (l.eraseIdx idx).length + 1 = l.length ∧
      ∀ x ∈ l.eraseIdx idx, x ∈ l := by
  induction l with
  | nil => simp at h
  | cons x xs ih =>
      by_cases hx : p x
      · rw [List.filter_cons_of_pos hx] at h
        have hrest : xs.filter p = [] := (List.cons.inj h).2
        refine ⟨0, ?_, ?_, ?_, ?_⟩
        · rw [List.findIdx?_cons, if_pos hx]
        · simpa [List.eraseIdx_cons_zero] using hrest
        · simp
        · intro y hy
          exact List.mem_cons_of_mem x (by simpa using hy)
      · rw [List.filter_cons_of_neg hx] at h
        obtain ⟨idx, hfind, hfilter, hlen, hsub⟩ := ih h
        refine ⟨idx + 1, ?_, ?_, ?_, ?_⟩
        · rw [List.findIdx?_cons, if_neg (by simp [hx]), List.findIdx?_succ,
            hfind]
          rfl
        · rw [List.eraseIdx_cons_succ, List.filter_cons_of_neg hx]
          exact hfilter
        · rw [List.eraseIdx_cons_succ]
          simpa using hlen
        · intro y hy
          rw [List.eraseIdx_cons_succ] at hy
          rcases List.mem_cons.mp hy with h1 | h2
          · exact h1 ▸ List.mem_cons_self x _
          · exact List.mem_cons_of_mem x (hsub y h2)

lemma remove_of_unique (wf : Nat → Bool) (user_name : String)
    (st : List ChatMember) (m : ChatMember)
    (h : st.filter (fun x => x.name = user_name) = [m]) :
    ∃ st2, remove_user_from_chat wf user_name st =
        some (st2, broadcast_message_to_other_users wf
          ("* " ++ user_name ++ " has left the room") user_name st2) ∧
      st2.filter (fun x => x.name = user_name) = [] ∧
      st2.length + 1 = st.length ∧ ∀ x ∈ st2, x ∈ st := by
  obtain ⟨idx, hfind, hfilter, hlen, hsub⟩ := findIdx_erase_of_filter_singleton h
  refine ⟨st.eraseIdx idx, ?_, hfilter, hlen, hsub⟩
  unfold remove_user_from_chat
  rw [hfind]

end VecChat

/-- C1 counterexample: client `bob` (stream 2) joins a room already holding a
member named `bob` (stream 0) and `carol` (stream 1), all writes succeeding.
`send_message_to_current_user` looks the joiner up by name and finds the first
`bob`, so the roster line goes to stream 0; the join announcement to `carol`
is then broadcast although no write ever targeted the newcomer — another
member is told about the newcomer before the newcomer received its roster. -/
theorem c1_counterexample :
    VecChat.registration_scope (fun _ => false)
        [⟨"bob", 0⟩, ⟨"carol", 1⟩] ⟨"bob", 2⟩ =
      VecChat.RegResult.succeeded
        [⟨"bob", 0⟩, ⟨"carol", 1⟩, ⟨"bob", 2⟩]
        ⟨⟨"bob", 0⟩, "* The room contains: carol", true⟩
        [⟨⟨"carol", 1⟩, "* bob has entered the room", true⟩] ∧
    (VecChat.registration_scope (fun _ => false)
        [⟨"bob", 0⟩, ⟨"carol", 1⟩] ⟨"bob", 2⟩).trace.all
      (fun a => a.target != ⟨"bob", 2⟩) = true := by
  exact ⟨rfl, rfl⟩

/-- C1 (amended): provided the joiner's name differs from every existing
member's name, the claim holds: if the roster write to the joiner fails, the
new member is removed again (the state is exactly the pre-registration state)
and the only write of the whole registration is that failed roster write — no
broadcast to anyone; if the roster write succeeds, the trace of the
registration is the successful roster write to the joiner followed by the
join announcements, so no other member is told about the newcomer before the
newcomer has received its roster. -/
theorem c1_registration_order (wf : Nat → Bool)
    (st : List VecChat.ChatMember) (j : VecChat.ChatMember)
    (hfresh : ∀ m ∈ st, m.name ≠ j.name) :
    (wf j.stream = true →
      VecChat.registration_scope wf st j =
        VecChat.RegResult.failed st
          ⟨j, VecChat.room_membership_message_builder j.name (st ++ [j]),
            false⟩) ∧
    (wf j.stream = false →
      VecChat.registration_scope wf st j =
        VecChat.RegResult.succeeded (st ++ [j])
          ⟨j, VecChat.room_membership_message_builder j.name (st ++ [j]), true⟩
          (VecChat.broadcast_message_to_other_users wf
            (VecChat.user_joined_message_builder j.name) j.name (st ++ [j])) ∧
      (VecChat.registration_scope wf st j).trace =
        ⟨j, VecChat.room_membership_message_builder j.name (st ++ [j]), true⟩ ::
          VecChat.broadcast_message_to_other_users wf
            (VecChat.user_joined_message_builder j.name) j.name (st ++ [j])) := by
  have hfind := VecChat.find?_name_append hfresh
  constructor
  · intro hw
    unfold VecChat.registration_scope VecChat.send_message_to_current_user
    simp [hfind, hw, VecChat.eraseIdx_concat]
  · intro hw
    have heq : VecChat.registration_scope wf st j =
        VecChat.RegResult.succeeded (st ++ [j])
          ⟨j, VecChat.room_membership_message_builder j.name (st ++ [j]), true⟩
          (VecChat.broadcast_message_to_other_users wf
            (VecChat.user_joined_message_builder j.name) j.name (st ++ [j])) := by
      unfold VecChat.registration_scope VecChat.send_message_to_current_user
      simp [hfind, hw]
    exact ⟨heq, by rw [heq]; rfl⟩

/-- Witness for C1 at a fresh-name registration. -/
theorem c1_registration_order_witness :
    (VecChat.registration_scope (fun _ => false) [⟨"alice", 0⟩]
        ⟨"bob", 1⟩).trace =
      [⟨⟨"bob", 1⟩, "* The room contains: alice", true⟩,
       ⟨⟨"alice", 0⟩, "* bob has entered the room", true⟩] := by
  have h := (c1_registration_order (fun _ => false) [⟨"alice", 0⟩] ⟨"bob", 1⟩
    (by decide)).2 rfl
  rw [h.2]
  rfl

/-- C7 counterexample: two registered members both named `bob` (streams 0 and
1); the session owning stream 1 receives an empty line.  `remove_user_from_chat`
resolves the departure by name and deletes the first match, so the other
member (stream 0) is removed while the departing member (stream 1) stays in
the registry, and no leave line reaches anyone — refuting that the member
itself is removed and the departure is broadcast to the remaining members. -/
theorem c7_counterexample :
    VecChat.session_loop_iteration (fun _ => false) "bob"
        [⟨"bob", 0⟩, ⟨"bob", 1⟩] (ReadResult.ok "\n") =
      VecChat.LoopStep.left [⟨"bob", 1⟩] [] := by
  rfl

/-- C7 (amended): provided the registered member `m` is the only registry
entry bearing its session's name, a line that is empty after trimming causes
departure exactly as claimed: the loop breaks with a departed outcome (so the
empty line is neither ignored nor broadcast as a chat message), `m` itself is
removed and nothing else is added or removed, every remaining member receives
a delivery attempt of the leave line, and every write of this iteration is the
leave line. -/
theorem c7_empty_line_departure (wf : Nat → Bool) (user_name raw : String)
    (st : List VecChat.ChatMember) (m : VecChat.ChatMember)
    (hm : st.filter (fun x => x.name = user_name) = [m])
    (hempty : (rustTrim raw).isEmpty = true) :
    ∃ st2 atts,
      VecChat.session_loop_iteration wf user_name st (ReadResult.ok raw) =
        VecChat.LoopStep.left st2 atts ∧
      m ∉ st2 ∧ st2.length + 1 = st.length ∧ (∀ x ∈ st2, x ∈ st) ∧
      (∀ x ∈ st2, (⟨x, "* " ++ user_name ++ " has left the room",
        !wf x.stream⟩ : VecChat.Attempt) ∈ atts) ∧
      (∀ a ∈ atts, a.line = "* " ++ user_name ++ " has left the room") := by
  obtain ⟨st2, hrem, hfilter, hlen, hsub⟩ :=
    VecChat.remove_of_unique wf user_name st m hm
  have hname2 : ∀ x ∈ st2, x.name ≠ user_name := by
    intro x hx hxe
    have : x ∈ st2.filter (fun x => x.name = user_name) :=
      List.mem_filter.mpr ⟨hx, by simpa using hxe⟩
    rw [hfilter] at this
    simp at this
  refine ⟨st2, VecChat.broadcast_message_to_other_users wf
    ("* " ++ user_name ++ " has left the room") user_name st2,
    ?_, ?_, hlen, hsub, ?_, ?_⟩
  · unfold VecChat.session_loop_iteration
    simp only [hempty, if_true, hrem]
  · intro hmem
    have hmname : m.name = user_name := by
      have : m ∈ st.filter (fun x => x.name = user_name) := by
        rw [hm]
        simp
      simpa using (List.mem_filter.mp this).2
    exact hname2 m hmem hmname
  · intro x hx
    exact VecChat.mem_broadcast hx (hname2 x hx)
  · intro a ha
    exact (VecChat.of_mem_broadcast ha).2.2.1

/-- Witness for C7 at a concrete two-member registry with unique names. -/
theorem c7_empty_line_departure_witness :
    ∃ st2 atts,
      VecChat.session_loop_iteration (fun _ => false) "bob"
        [⟨"alice", 0⟩, ⟨"bob", 1⟩] (ReadResult.ok " \n") =
        VecChat.LoopStep.left st2 atts ∧
      (⟨"bob", 1⟩ : VecChat.ChatMember) ∉ st2 ∧
      st2.length + 1 = [(⟨"alice", 0⟩ : VecChat.ChatMember), ⟨"bob", 1⟩].length ∧
      (∀ x ∈ st2, x ∈ [(⟨"alice", 0⟩ : VecChat.ChatMember), ⟨"bob", 1⟩]) ∧
      (∀ x ∈ st2, (⟨x, "* " ++ "bob" ++ " has left the room",
        !(fun _ => false) x.stream⟩ : VecChat.Attempt) ∈ atts) ∧
      (∀ a ∈ atts, a.line = "* " ++ "bob" ++ " has left the room") :=
  c7_empty_line_departure (fun _ => false) "bob" " \n"
    [⟨"alice", 0⟩, ⟨"bob", 1⟩] ⟨"bob", 1⟩ (by decide) (by decide)
